import Mathlib

/-!
Verification of the recruitment-metrics repository (src/app.py, src/metrics.py,
src/database.py, src/utils.py, src/config.py) against its specification.

The Python code is shallowly embedded: a dataframe of interview events becomes a
`List Row`; pandas timestamps become a civil date-time structure `DT` with
minute precision (the upload date format `%m/%d/%y %H:%M` carries no seconds);
`strftime` week formatting is modelled by explicit ISO-week arithmetic; floats
are modelled by rationals, with `round(x, 1)` modelled as rounding to the
nearest tenth.
-/

/-- Floor-based days-from-civil-date (proleptic Gregorian), day 0 = 0000-03-01.
Models the day arithmetic underlying pandas timestamps. -/
def daysFromCivil (y m d : Int) : Int :=
  let a : Int := if m ≤ 2 then 1 else 0
  let y2 := y - a
  let m2 := m + 12 * a - 3
  let doy := (153 * m2 + 2).fdiv 5 + d - 1
  365 * y2 + y2.fdiv 4 - y2.fdiv 100 + y2.fdiv 400 + doy

/-- Inverse of `daysFromCivil`: the (year, month, day) of a day number. -/
def civilFromDays (z : Int) : Int × Int × Int :=
  let era := z.fdiv 146097
  let doe := z - era * 146097
  let yoe := (doe - doe.fdiv 1460 + doe.fdiv 36524 - doe.fdiv 146096).fdiv 365
  let y2 := yoe + era * 400
  let doy := doe - (365 * yoe + yoe.fdiv 4 - yoe.fdiv 100)
  let mp := (5 * doy + 2).fdiv 153
  let d := doy - (153 * mp + 2).fdiv 5 + 1
  let m := mp + (if mp < 10 then 3 else -9)
  (y2 + (if m ≤ 2 then 1 else 0), m, d)

/-- Monday-based weekday index (Monday = 0) of a day number. -/
def dow0 (days : Int) : Int := (days + 2).emod 7

/-- ISO-8601 week number of a civil date, as computed by strftime %V:
the week of the Thursday of the date's Monday-aligned week, numbered within
the calendar year of that Thursday. -/
def isoWeekNum (y m d : Int) : Int :=
  let days := daysFromCivil y m d
  let thu := days - dow0 days + 3
  let yi := (civilFromDays thu).1
  (thu - daysFromCivil yi 1 1).fdiv 7 + 1

/-- ISO-8601 week-numbering year of a civil date (strftime %G). -/
def isoYearOf (y m d : Int) : Int :=
  let days := daysFromCivil y m d
  (civilFromDays (days - dow0 days + 3)).1

/-- A timestamp with minute precision, as parsed from the upload format
%m/%d/%y %H:%M (no seconds component in the data). -/
structure DT where
  year : Nat
  month : Nat
  day : Nat
  hour : Nat
  minute : Nat
deriving DecidableEq, Repr

/-- Minutes since the day-0 epoch; pandas timestamp comparison and
subtraction are modelled on this value. -/
def DT.toMin (t : DT) : Int :=
  1440 * daysFromCivil t.year t.month t.day + 60 * t.hour + t.minute

/-- Zero-pad a natural number to two digits (strftime %V, %m, %d, %H, %M). -/
def natPad2 (n : Nat) : String := if n < 10 then "0" ++ toString n else toString n

/-- The week bucket `df['Interview Date TZ'].dt.strftime('%Y-W%V')` used by
app.py:209 and metrics.py:50 and the other aggregators: calendar year of the
timestamp, then the ISO week number. Years in the data are four-digit. -/
def weekStr (t : DT) : String :=
  toString t.year ++ "-W" ++ natPad2 (isoWeekNum t.year t.month t.day).toNat

/-- The week bucket `strftime('2024-W%V')` hardcoded in metrics.py:246
(get_weekly_source_breakdown). -/
def weekStr2024 (t : DT) : String :=
  "2024-W" ++ natPad2 (isoWeekNum t.year t.month t.day).toNat

/-- Lowercase a string character-wise; the repository data is ASCII, where
this agrees with Python str.lower / pandas case-insensitive matching. -/
def strLower (s : String) : String := String.map Char.toLower s

/-- Whether the first character list is an initial segment of the second. -/
def listStarts : List Char → List Char → Bool
  | [], _ => true
  | _ :: _, [] => false
  | p :: ps, c :: cs => p == c && listStarts ps cs

/-- Whether `pat` occurs as a contiguous run inside the second list. -/
def listHasSub (pat : List Char) : List Char → Bool
  | [] => listStarts pat []
  | c :: cs => listStarts pat (c :: cs) || listHasSub pat cs

/-- Case-insensitive substring test: pandas
`.str.contains(pat, case=False, na=False)` on a plain-text pattern. -/
def containsCI (s pat : String) : Bool :=
  listHasSub (strLower pat).data (strLower s).data

/-- Classifier for recruiter-screen feedback forms:
`.str.contains('Recruiter Screen', case=False, na=False)`. -/
def isScreenForm (s : String) : Bool := containsCI s "Recruiter Screen"

/-- The fixed onsite-interviewer set: `isin(['Sam Nadler', 'Jordan Metzner'])`. -/
def isOnsiteInterviewer (s : String) : Bool :=
  s == "Sam Nadler" || s == "Jordan Metzner"

/-- Lexicographic order on character lists by code point, as Python compares
strings. -/
def listLeChars : List Char → List Char → Bool
  | [], _ => true
  | _ :: _, [] => false
  | a :: as, b :: bs => if a = b then listLeChars as bs else decide (a < b)

/-- String comparison matching the sort order of Python sorted() on strings. -/
def strLeB (a b : String) : Bool := listLeChars a.data b.data

/-- Order on (week, interviewer) pairs used to model the sorted group keys of
a pandas groupby over two string columns. -/
def pairLeB (a b : String × String) : Bool :=
  if a.1 = b.1 then strLeB a.2 b.2 else strLeB a.1 b.1

/-- Insert into a list so that elements ordered by `le` stay ordered. -/
def insertLe {α : Type} (le : α → α → Bool) (a : α) : List α → List α
  | [] => [a]
  | b :: l => if le a b then a :: b :: l else b :: insertLe le a l

/-- Insertion sort by `le`; models Python sorted() on distinct keys. -/
def sortLe {α : Type} (le : α → α → Bool) : List α → List α
  | [] => []
  | a :: l => insertLe le a (sortLe le l)

/-- Distinct elements in first-occurrence order; models pandas `.unique()`. -/
def uniqueFirstAux {α : Type} [DecidableEq α] (seen : List α) : List α → List α
  | [] => []
  | a :: l =>
    if a ∈ seen then uniqueFirstAux seen l else a :: uniqueFirstAux (a :: seen) l

/-- Distinct elements in first-occurrence order; models pandas `.unique()`. -/
def uniqueFirst {α : Type} [DecidableEq α] (l : List α) : List α :=
  uniqueFirstAux [] l

/-- Python list slicing `l[-n:]`: the last `n` elements (all of them when
`n = 0` or `n` exceeds the length). -/
def lastN {α : Type} (n : Nat) (l : List α) : List α :=
  if n = 0 then l else l.drop (l.length - n)

/-- Rounding to one decimal place, modelling Python round(x, 1) (to the
nearest tenth; no claim depends on tie direction). -/
def round1 (q : ℚ) : ℚ := (((10 * q + 1 / 2).floor : ℤ) : ℚ) / 10

/-- One normalized interview event, the row shape shared by the uploaded CSV
and the aggregators (nullable overall score; minute-precision timestamp). -/
structure Row where
  candidateName : String
  interviewer : String
  feedbackForm : String
  candidateOrigin : String
  overallScore : Option ℚ
  ts : DT
deriving DecidableEq, Repr

/-- `pd.to_numeric(x, errors='coerce') >= 3`-style score test: a null score
(NaN after coercion) fails every comparison. -/
def scoreAtLeast (bound : ℚ) (s : Option ℚ) : Bool :=
  match s with
  | some x => bound ≤ x
  | none => false

/-- Maximum interview timestamp of a dataframe, in minutes
(`df['Interview Date TZ'].max()`); only used on non-empty frames. -/
def maxTsOf : List Row → Int
  | [] => 0
  | a :: l => l.foldl (fun acc r => max acc r.ts.toMin) a.ts.toMin

/-! ## database.py: save_to_db (lines 51-118) -/

/-- strftime('%Y-%m-%d %H:%M') of a timestamp: the minute-truncated key
component built for the uploaded rows in database.py:64. -/
def fmtMinute (t : DT) : String :=
  toString t.year ++ "-" ++ natPad2 t.month ++ "-" ++ natPad2 t.day ++ " " ++
    natPad2 t.hour ++ ":" ++ natPad2 t.minute

/-- strftime('%Y-%m-%d %H:%M:%S') of a timestamp: the string stored in the
interview_date column by database.py:98 (the data has minute precision, so
the seconds component is always 00). -/
def fmtSeconds (t : DT) : String := fmtMinute t ++ ":00"

/-- One persisted recruitment_data record as stored by save_to_db, with the
interview_date kept as its stored string. -/
structure DbRecord where
  candidate_name : String
  interview_date : String
  feedback_form : String
  interviewer : String
  candidate_origin : String
  overall_score : Option ℚ
deriving DecidableEq, Repr

/-- The record_key built for an uploaded row (database.py:62-66):
name_minuteTimestamp_form. -/
def newRecordKey (r : Row) : String :=
  r.candidateName ++ "_" ++ fmtMinute r.ts ++ "_" ++ r.feedbackForm

/-- The record_key built for an existing persisted record
(database.py:72-75): name_storedDateString_form. -/
def existingRecordKey (r : DbRecord) : String :=
  r.candidate_name ++ "_" ++ r.interview_date ++ "_" ++ r.feedback_form

/-- Conversion of an uploaded row to the inserted record (database.py:96-105). -/
def toDbRecord (r : Row) : DbRecord :=
  ⟨r.candidateName, fmtSeconds r.ts, r.feedbackForm, r.interviewer,
    r.candidateOrigin, r.overallScore⟩

/-- database.py save_to_db: drops uploaded rows whose record_key matches an
existing key (skipped entirely when the store is empty), inserts the rest,
and returns (records_inserted, new persisted set). Chunked insertion is
order- and count-preserving and is modelled as one append. -/
def save_to_db (df : List Row) (persisted : List DbRecord) : Nat × List DbRecord :=
  let keep :=
    if persisted = [] then df
    else df.filter (fun r =>
      !((persisted.map existingRecordKey).contains (newRecordKey r)))
  if keep = [] then (0, persisted)
  else (keep.length, persisted ++ keep.map toDbRecord)

/-! ## app.py sidebar upload handler (lines 399-421) -/

/-- The subset of an uploaded batch that the app.py upload handler passes to
its save_to_db: the whole batch when the store is empty, otherwise only rows
strictly newer than the maximum persisted timestamp. -/
def uploadSaved (newDf existingDf : List Row) : List Row :=
  if existingDf = [] then newDf
  else newDf.filter (fun r => maxTsOf existingDf < r.ts.toMin)

/-! ## get_recruiter_screen_metrics (metrics.py 45-88, same logic app.py 206-228) -/

/-- One row of the weekly recruiter-screen metrics table. -/
structure ScreenRow where
  week : String
  recruiter : String
  totalScreens : Nat
  passes : Nat
  passRate : ℚ
deriving DecidableEq, Repr

/-- The recruiter-screen rows of a dataframe: feedback form matches the
screen classifier and the interviewer is not an onsite interviewer. -/
def screensOf (df : List Row) : List Row :=
  df.filter (fun r =>
    isScreenForm r.feedbackForm && !isOnsiteInterviewer r.interviewer)

/-- `sorted(recruiter_screens['Week'].unique())[-n:]`: the window of weeks
used by get_recruiter_screen_metrics, computed from the screen rows only. -/
def latestWeeksScreens (df : List Row) (n : Nat) : List String :=
  lastN n (sortLe strLeB (uniqueFirst ((screensOf df).map (fun r => weekStr r.ts))))

/-- The screen rows inside the selected window
(`recruiter_screens[recruiter_screens['Week'].isin(latest_weeks)]`). -/
def windowedScreens (df : List Row) (n : Nat) : List Row :=
  (screensOf df).filter (fun r => (latestWeeksScreens df n).contains (weekStr r.ts))

/-- The distinct (Week, Interviewer) group keys of the windowed screens, in
the sorted order a pandas groupby emits them. -/
def screenGroupKeys (df : List Row) (n : Nat) : List (String × String) :=
  sortLe pairLeB
    (uniqueFirst ((windowedScreens df n).map (fun r => (weekStr r.ts, r.interviewer))))

/-- get_recruiter_screen_metrics: per (week, interviewer) group of the
windowed screens emit total screens, passes (score at least 3) and the pass
rate passes/total*100 rounded to one decimal. -/
def get_recruiter_screen_metrics (df : List Row) (weeksToShow : Nat) : List ScreenRow :=
  if screensOf df = [] then []
  else
    (screenGroupKeys df weeksToShow).map (fun k =>
      let grp := (windowedScreens df weeksToShow).filter
        (fun r => (weekStr r.ts, r.interviewer) == k)
      let total := grp.length
      let passes := (grp.filter (fun r => scoreAtLeast 3 r.overallScore)).length
      ⟨k.1, k.2, total, passes, round1 ((passes : ℚ) / (total : ℚ) * 100)⟩)

/-! ## get_onsite_conversion_metrics
The module-level binding in metrics.py is its second definition (lines
496-552), which shadows the first (lines 121-168) when the module loads;
app.py lines 230-262 define an independent variant that also emits the
Screens column. Both effective variants are embedded. -/

/-- The window `sorted(df['Week'].unique())[-n:]` computed over the full
dataframe, used by the conversion metrics. -/
def latestWeeksAll (df : List Row) (n : Nat) : List String :=
  lastN n (sortLe strLeB (uniqueFirst (df.map (fun r => weekStr r.ts))))

/-- The distinct interviewers having a recruiter-screen row anywhere in the
dataframe (metrics.py 507-510), in first-occurrence order. -/
def screenRecruiters (df : List Row) : List String :=
  uniqueFirst ((df.filter (fun r =>
    isScreenForm r.feedbackForm && !isOnsiteInterviewer r.interviewer)).map
      (fun r => r.interviewer))

/-- The distinct candidates ever screened by a recruiter across the full
dataframe (metrics.py 519-522). -/
def lifetimeCandidates (df : List Row) (rec : String) : List String :=
  uniqueFirst ((df.filter (fun r =>
    r.interviewer == rec && isScreenForm r.feedbackForm)).map
      (fun r => r.candidateName))

/-- One row emitted by the effective metrics.py conversion function
(no Screens column in its dict). -/
structure ConvRow where
  week : String
  recruiter : String
  onsites : Nat
  conversion : ℚ
deriving DecidableEq, Repr

/-- metrics.py get_onsite_conversion_metrics (the effective second
definition, lines 496-552): for each window week and each screen recruiter,
count the week's onsite-interviewer rows whose candidate was ever screened
by the recruiter, divide by the recruiter's screen rows of that week, and
round to one decimal (zero when there are no screens that week). -/
def get_onsite_conversion_metrics (df : List Row) (weeksToShow : Nat) : List ConvRow :=
  (latestWeeksAll df weeksToShow).flatMap (fun w =>
    (screenRecruiters df).map (fun rec =>
      let totalOnsites := (df.filter (fun r =>
        weekStr r.ts == w && isOnsiteInterviewer r.interviewer &&
          (lifetimeCandidates df rec).contains r.candidateName)).length
      let totalScreens := (df.filter (fun r =>
        weekStr r.ts == w && r.interviewer == rec &&
          isScreenForm r.feedbackForm)).length
      let rate : ℚ :=
        if 0 < totalScreens then (totalOnsites : ℚ) / (totalScreens : ℚ) * 100 else 0
      ⟨w, rec, totalOnsites, round1 rate⟩))

/-- One row emitted by the app.py conversion variant (with Screens). -/
structure ConvRowApp where
  week : String
  recruiter : String
  screens : Nat
  onsites : Nat
  conversion : ℚ
deriving DecidableEq, Repr

/-- app.py get_onsite_conversion_metrics (lines 230-262): same attribution
rule, iterating the distinct interviewers of the screen-form rows and
skipping the onsite interviewers, and also emitting the week screen count. -/
def get_onsite_conversion_metrics_app (df : List Row) (weeksToShow : Nat) :
    List ConvRowApp :=
  let rScreens := df.filter (fun r => isScreenForm r.feedbackForm)
  let oRows := df.filter (fun r => isOnsiteInterviewer r.interviewer)
  (latestWeeksAll df weeksToShow).flatMap (fun w =>
    ((uniqueFirst (rScreens.map (fun r => r.interviewer))).filter
      (fun rec => !isOnsiteInterviewer rec)).map (fun rec =>
        let weekScreens := (rScreens.filter (fun r =>
          weekStr r.ts == w && r.interviewer == rec)).length
        let weekOnsites := (oRows.filter (fun r =>
          weekStr r.ts == w &&
            (rScreens.filter (fun q => q.interviewer == rec)).any
              (fun q => q.candidateName == r.candidateName))).length
        let rate : ℚ :=
          if 0 < weekScreens then (weekOnsites : ℚ) / (weekScreens : ℚ) * 100 else 0
        ⟨w, rec, weekScreens, weekOnsites, round1 rate⟩))

/-! ## get_weekly_source_breakdown (metrics.py 225-299) -/

/-- One week row of the weekly source breakdown (no Unknown column is
emitted by the code). -/
structure SourceRow where
  week : String
  applied : Nat
  sourced : Nat
  referred : Nat
  total : Nat
deriving DecidableEq, Repr

/-- Origin classifier 'applied|application|direct' (case-insensitive). -/
def matchesApplied (o : String) : Bool :=
  containsCI o "applied" || containsCI o "application" || containsCI o "direct"

/-- Origin classifier 'sourced|sourcing|linkedin|outbound'. -/
def matchesSourced (o : String) : Bool :=
  containsCI o "sourced" || containsCI o "sourcing" || containsCI o "linkedin" ||
    containsCI o "outbound"

/-- Origin classifier 'referred|referral|internal'. -/
def matchesReferred (o : String) : Bool :=
  containsCI o "referred" || containsCI o "referral" || containsCI o "internal"

/-- The screen-form rows of the trailing weeksToShow*7-day window used by
get_weekly_source_breakdown (metrics.py 241-255); this variant filters by
form only, without excluding onsite interviewers. -/
def breakdownScreens (df : List Row) (weeksToShow : Nat) : List Row :=
  (df.filter (fun r =>
    maxTsOf df - (weeksToShow : Int) * 7 * 1440 ≤ r.ts.toMin)).filter
      (fun r => isScreenForm r.feedbackForm)

/-- get_weekly_source_breakdown: per hardcoded-2024 week bucket of the
windowed screen rows, count the origins matching each category classifier
and the total row count (an unmatched origin is counted only in Total). -/
def get_weekly_source_breakdown (df : List Row) (weeksToShow : Nat) : List SourceRow :=
  match df with
  | [] => []
  | _ :: _ =>
    let screens := breakdownScreens df weeksToShow
    let allWeeks := sortLe strLeB (uniqueFirst (screens.map (fun r => weekStr2024 r.ts)))
    allWeeks.map (fun w =>
      let weekData := screens.filter (fun r => weekStr2024 r.ts == w)
      ⟨w,
        (weekData.filter (fun r => matchesApplied (strLower r.candidateOrigin))).length,
        (weekData.filter (fun r => matchesSourced (strLower r.candidateOrigin))).length,
        (weekData.filter (fun r => matchesReferred (strLower r.candidateOrigin))).length,
        weekData.length⟩)

/-! ## get_time_to_hire_metrics (app.py 276-295) -/

/-- One emitted time-to-hire row. -/
structure TthRow where
  week : String
  recruiter : String
  days : Int
deriving DecidableEq, Repr

/-- The screen-form rows iterated by get_time_to_hire_metrics (form match
only; no interviewer exclusion in this function). -/
def tthScreens (df : List Row) : List Row :=
  df.filter (fun r => isScreenForm r.feedbackForm)

/-- The onsite-interviewer rows used by get_time_to_hire_metrics. -/
def tthOnsites (df : List Row) : List Row :=
  df.filter (fun r => isOnsiteInterviewer r.interviewer)

/-- Whole days between two timestamps as pandas Timedelta.days reports them
(floor of the fractional day count). -/
def daysBetween (later earlier : DT) : Int :=
  (later.toMin - earlier.toMin).fdiv 1440

/-- app.py get_time_to_hire_metrics: for each screen-form row, take the
first row (dataframe order, `.iloc[0]`) of the onsite rows with the same
candidate name; emit (screen week, screen interviewer, day difference), or
nothing when the candidate has no onsite row. -/
def get_time_to_hire_metrics (df : List Row) : List TthRow :=
  (tthScreens df).filterMap (fun s =>
    match (tthOnsites df).filter (fun o => o.candidateName == s.candidateName) with
    | [] => none
    | o :: _ => some ⟨weekStr s.ts, s.interviewer, daysBetween o.ts s.ts⟩)

/-- The earliest row by timestamp (first such row on ties). -/
def earliestByTs : List Row → Option Row
  | [] => none
  | a :: l => some (l.foldl (fun best r => if r.ts.toMin < best.ts.toMin then r else best) a)

/-- Modelled from the claim wording of timeToHire (spec 4.4): match each
screen to the earliest onsite row of the same candidate whose timestamp is
at or after the screen, excluding screens with no such onsite. Used only to
compare the code against the specified matching rule. -/
def timeToHireSpecRows (df : List Row) : List TthRow :=
  (tthScreens df).filterMap (fun s =>
    (earliestByTs ((tthOnsites df).filter (fun o =>
      o.candidateName == s.candidateName && s.ts.toMin ≤ o.ts.toMin))).map
        (fun o => ⟨weekStr s.ts, s.interviewer, daysBetween o.ts s.ts⟩))

/-! ## get_star_recruiter (app.py 353-357 and metrics.py 467-482) -/

/-- The summed Total Screens of one recruiter over a metrics table
(`metrics_df.groupby('Recruiter')['Total Screens'].sum()` for one key). -/
def sumScreensFor (t : List ScreenRow) (rec : String) : Nat :=
  ((t.filter (fun r => r.recruiter == rec)).map (fun r => r.totalScreens)).sum

/-- app.py get_star_recruiter: None on an empty table, else the Recruiter of
the first row attaining the maximal Total Screens of a single row
(`df.loc[df['Total Screens'].idxmax(), 'Recruiter']`). -/
def get_star_recruiter_app (t : List ScreenRow) : Option String :=
  match t with
  | [] => none
  | a :: l =>
    some ((l.foldl (fun best r =>
      if best.totalScreens < r.totalScreens then r else best) a).recruiter)

/-- metrics.py get_star_recruiter: None on an empty table, else the first
recruiter (in sorted groupby-key order) attaining the maximal summed Total
Screens. -/
def get_star_recruiter_metrics (t : List ScreenRow) : Option String :=
  match sortLe strLeB (uniqueFirst (t.map (fun r => r.recruiter))) with
  | [] => none
  | a :: l =>
    some (l.foldl (fun best rec =>
      if sumScreensFor t best < sumScreensFor t rec then rec else best) a)

/-! ## utils.py calculate_percentage_change (lines 100-104) -/

/-- utils.py calculate_percentage_change: 100 or 0 when the previous value
is zero, otherwise the relative change in percent. -/
def calculate_percentage_change (current previous : ℚ) : ℚ :=
  if previous = 0 then (if 0 < current then 100 else 0)
  else (current - previous) / previous * 100

/-! ## Claim-side characterizations and concrete example data -/

/-- Whether the recruiter ever screened the candidate anywhere in the
dataframe, phrased directly as an existential scan; equals the
candidate-set membership the code computes via unique(). -/
def everScreenedBy (df : List Row) (rec cand : String) : Bool :=
  df.any (fun s =>
    s.interviewer == rec && isScreenForm s.feedbackForm && s.candidateName == cand)

/-- The number of the week's onsite-interviewer rows whose candidate was
ever screened by the recruiter (the Onsites value of the conversion claim). -/
def specWeekOnsites (df : List Row) (w rec : String) : Nat :=
  (df.filter (fun r =>
    weekStr r.ts == w && isOnsiteInterviewer r.interviewer &&
      everScreenedBy df rec r.candidateName)).length

/-- The number of the recruiter's screen-form rows in the week (the Screens
value of the conversion claim). -/
def specWeekScreens (df : List Row) (w rec : String) : Nat :=
  (df.filter (fun r =>
    weekStr r.ts == w && r.interviewer == rec && isScreenForm r.feedbackForm)).length

/-- The Unknown tally of the source-breakdown claim: this week's screen rows
matching none of the three category classifiers (not emitted by the code). -/
def specUnknownCount (df : List Row) (n : Nat) (w : String) : Nat :=
  (((breakdownScreens df n).filter (fun r => weekStr2024 r.ts == w)).filter
    (fun r => !(matchesApplied (strLower r.candidateOrigin) ||
      matchesSourced (strLower r.candidateOrigin) ||
      matchesReferred (strLower r.candidateOrigin)))).length

/-- Scenario A and B screen event: Alice screened by RecruiterA on
2024-01-08 10:00, score 4, origin Applied. -/
def aliceScreenRow : Row :=
  ⟨"Alice", "RecruiterA", "Recruiter Screen", "Applied", some 4, ⟨2024, 1, 8, 10, 0⟩⟩

/-- Scenario B onsite event: Alice with Sam Nadler on 2024-01-10 09:00. -/
def aliceOnsiteRow : Row :=
  ⟨"Alice", "Sam Nadler", "Onsite", "Applied", none, ⟨2024, 1, 10, 9, 0⟩⟩

/-- The Scenario B dataset: the Alice screen plus her Sam Nadler onsite. -/
def scenarioBDf : List Row := [aliceScreenRow, aliceOnsiteRow]

/-- Scenario C upload row: Bob, 2024-02-01 09:00, RecruiterB, screen form. -/
def bobUploadRow : Row :=
  ⟨"Bob", "RecruiterB", "Recruiter Screen", "Sourced", some 2, ⟨2024, 2, 1, 9, 0⟩⟩

/-- A dataset whose latest week (2024-W03) contains only an onsite event
while its screen event sits in 2024-W02. -/
def mixedWeeksDf : List Row :=
  [aliceScreenRow,
   ⟨"Carl", "Sam Nadler", "Onsite", "Applied", none, ⟨2024, 1, 15, 9, 0⟩⟩]

/-- A screen row whose origin text matches two category classifiers at once
(application and internal). -/
def overlapOriginRow : Row :=
  ⟨"Dee", "RecruiterC", "Recruiter Screen", "Internal Application", some 3,
    ⟨2024, 1, 10, 11, 0⟩⟩

/-- A screen row dataset with one origin per category plus one unmatched. -/
def disjointOriginsDf : List Row :=
  [⟨"E1", "RecruiterC", "Recruiter Screen", "Applied", some 3, ⟨2024, 1, 8, 9, 0⟩⟩,
   ⟨"E2", "RecruiterC", "Recruiter Screen", "LinkedIn", some 2, ⟨2024, 1, 9, 9, 0⟩⟩,
   ⟨"E3", "RecruiterC", "Recruiter Screen", "Referral", some 4, ⟨2024, 1, 10, 9, 0⟩⟩,
   ⟨"E4", "RecruiterC", "Recruiter Screen", "Mystery", none, ⟨2024, 1, 11, 9, 0⟩⟩]

/-- Time-to-hire example: Bob screened 2024-01-10, with onsite rows listed
out of timestamp order (2024-01-20 before 2024-01-12). -/
def tthExampleDf : List Row :=
  [⟨"Bob", "RecruiterB", "Recruiter Screen", "Sourced", some 3, ⟨2024, 1, 10, 9, 0⟩⟩,
   ⟨"Bob", "Sam Nadler", "Onsite", "Sourced", none, ⟨2024, 1, 20, 9, 0⟩⟩,
   ⟨"Bob", "Jordan Metzner", "Onsite", "Sourced", none, ⟨2024, 1, 12, 9, 0⟩⟩]

/-- A screen-metrics table where the row with the most screens in a single
week (B, 5) belongs to a recruiter whose summed screens (5) trail the
summed screens of A (3 + 4 = 7). -/
def starExampleTable : List ScreenRow :=
  [⟨"2024-W01", "A", 3, 1, 100⟩,
   ⟨"2024-W01", "B", 5, 1, 100⟩,
   ⟨"2024-W02", "A", 4, 1, 100⟩]

/-- The Scenario A screen-metrics row. -/
def aliceMetricsRow : ScreenRow := ⟨"2024-W02", "RecruiterA", 1, 1, 100⟩

/-! ## Helper lemmas about the list utilities -/

theorem mem_insertLe {α : Type} (le : α → α → Bool) (a x : α) (l : List α) :
    x ∈ insertLe le a l ↔ x = a ∨ x ∈ l := by
  induction l with
  | nil => simp [insertLe]
  | cons b t ih =>
    simp only [insertLe]
    by_cases h : le a b = true
    · simp [h, List.mem_cons]
    · simp [h, List.mem_cons, ih]
      tauto

theorem mem_sortLe {α : Type} (le : α → α → Bool) (x : α) (l : List α) :
    x ∈ sortLe le l ↔ x ∈ l := by
  induction l with
  | nil => simp [sortLe]
  | cons a t ih => simp [sortLe, mem_insertLe, ih, List.mem_cons]

theorem nodup_insertLe {α : Type} (le : α → α → Bool) (a : α) (l : List α)
    (ha : a ∉ l) (hl : l.Nodup) : (insertLe le a l).Nodup := by
  induction l with
  | nil => simp [insertLe]
  | cons b t ih =>
    rw [List.nodup_cons] at hl
    have hab : a ≠ b := fun e => ha (e ▸ List.mem_cons_self _ _)
    have hat : a ∉ t := fun hm => ha (List.mem_cons_of_mem _ hm)
    simp only [insertLe]
    by_cases h : le a b = true
    · rw [if_pos h, List.nodup_cons, List.nodup_cons]
      exact ⟨ha, hl.1, hl.2⟩
    · rw [if_neg h, List.nodup_cons]
      constructor
      · rw [mem_insertLe]
        rintro (rfl | hbt)
        · exact hab rfl
        · exact hl.1 hbt
      · exact ih hat hl.2

theorem nodup_sortLe {α : Type} (le : α → α → Bool) (l : List α)
    (hl : l.Nodup) : (sortLe le l).Nodup := by
  induction l with
  | nil => simp [sortLe]
  | cons a t ih =>
    rw [List.nodup_cons] at hl
    exact nodup_insertLe le a _ (fun hm => hl.1 ((mem_sortLe le a t).1 hm)) (ih hl.2)

theorem mem_uniqueFirstAux {α : Type} [DecidableEq α] (x : α) (l seen : List α) :
    x ∈ uniqueFirstAux seen l ↔ x ∈ l ∧ x ∉ seen := by
  induction l generalizing seen with
  | nil => simp [uniqueFirstAux]
  | cons a t ih =>
    simp only [uniqueFirstAux]
    by_cases h : a ∈ seen
    · simp only [h, if_true, ih, List.mem_cons]
      constructor
      · tauto
      · rintro ⟨rfl | hxt, hxs⟩
        · exact absurd h hxs
        · exact ⟨hxt, hxs⟩
    · simp only [h, if_false, List.mem_cons, ih, List.mem_cons]
      by_cases hx : x = a
      · subst hx
        simp [h]
      · simp [hx]

theorem mem_uniqueFirst {α : Type} [DecidableEq α] (x : α) (l : List α) :
    x ∈ uniqueFirst l ↔ x ∈ l := by
  simp [uniqueFirst, mem_uniqueFirstAux]

theorem nodup_uniqueFirstAux {α : Type} [DecidableEq α] (l seen : List α) :
    (uniqueFirstAux seen l).Nodup := by
  induction l generalizing seen with
  | nil => simp [uniqueFirstAux]
  | cons a t ih =>
    simp only [uniqueFirstAux]
    by_cases h : a ∈ seen
    · simp only [h, if_true]
      exact ih seen
    · simp only [h, if_false, List.nodup_cons]
      refine ⟨fun hm => ?_, ih (a :: seen)⟩
      exact ((mem_uniqueFirstAux a t (a :: seen)).1 hm).2 (List.mem_cons_self a seen)

theorem nodup_uniqueFirst {α : Type} [DecidableEq α] (l : List α) :
    (uniqueFirst l).Nodup := nodup_uniqueFirstAux l []

theorem foldl_max_le {α : Type} (f : α → Int) (l : List α) (a : Int) :
    a ≤ l.foldl (fun acc r => max acc (f r)) a ∧
      ∀ r ∈ l, f r ≤ l.foldl (fun acc r => max acc (f r)) a := by
  induction l generalizing a with
  | nil => simp
  | cons b t ih =>
    simp only [List.foldl_cons, List.mem_cons]
    refine ⟨le_trans (le_max_left a (f b)) (ih (max a (f b))).1, ?_⟩
    rintro r (rfl | hr)
    · exact le_trans (le_max_right a (f r)) (ih (max a (f r))).1
    · exact (ih (max a (f b))).2 r hr

theorem maxTsOf_ge (l : List Row) (r : Row) (hr : r ∈ l) :
    r.ts.toMin ≤ maxTsOf l := by
  cases l with
  | nil => cases hr
  | cons a t =>
    rcases List.mem_cons.1 hr with rfl | hrt
    · exact (foldl_max_le (fun r => r.ts.toMin) t r.ts.toMin).1
    · exact (foldl_max_le (fun r => r.ts.toMin) t a.ts.toMin).2 r hrt

theorem foldl_max_attained {α : Type} (f : α → Int) (l : List α) (a : Int) :
    l.foldl (fun acc r => max acc (f r)) a = a ∨
      ∃ r ∈ l, l.foldl (fun acc r => max acc (f r)) a = f r := by
  induction l generalizing a with
  | nil => simp
  | cons b t ih =>
    simp only [List.foldl_cons, List.mem_cons]
    rcases ih (max a (f b)) with h | ⟨r, hr, h⟩
    · rcases max_choice a (f b) with hm | hm
      · exact Or.inl (h.trans hm)
      · exact Or.inr ⟨b, Or.inl rfl, h.trans hm⟩
    · exact Or.inr ⟨r, Or.inr hr, h⟩

theorem maxTsOf_attained (l : List Row) (hne : l ≠ []) :
    ∃ r ∈ l, maxTsOf l = r.ts.toMin := by
  cases l with
  | nil => exact absurd rfl hne
  | cons a t =>
    rcases foldl_max_attained (fun r => r.ts.toMin) t a.ts.toMin with h | ⟨r, hr, h⟩
    · exact ⟨a, List.mem_cons_self a t, h⟩
    · exact ⟨r, List.mem_cons_of_mem a hr, h⟩

theorem foldl_pickMax_mem {α : Type} (f : α → Nat) (l : List α) (a : α) :
    (l.foldl (fun best x => if f best < f x then x else best) a ∈ a :: l) ∧
      ∀ x ∈ a :: l, f x ≤ f (l.foldl (fun best x => if f best < f x then x else best) a) := by
  induction l generalizing a with
  | nil => simp
  | cons b t ih =>
    simp only [List.foldl_cons, List.mem_cons]
    set a2 := if f a < f b then b else a with ha2
    have hmem : a2 = a ∨ a2 = b := by
      rw [ha2]; split <;> simp
    have hfa : f a ≤ f a2 := by
      rw [ha2]; split
      · omega
      · omega
    have hfb : f b ≤ f a2 := by
      rw [ha2]; split
      · omega
      · omega
    refine ⟨?_, ?_⟩
    · rcases List.mem_cons.1 (ih a2).1 with h | h
      · rcases hmem with h2 | h2
        · exact Or.inl (h.trans h2)
        · exact Or.inr (Or.inl (h.trans h2))
      · exact Or.inr (Or.inr h)
    · intro x hx
      rcases hx with rfl | rfl | hx3
      · exact le_trans hfa ((ih a2).2 a2 (List.mem_cons_self _ _))
      · exact le_trans hfb ((ih a2).2 a2 (List.mem_cons_self _ _))
      · exact (ih a2).2 x (List.mem_cons_of_mem _ hx3)

theorem head_filter_eq_find {α : Type} (p : α → Bool) (l : List α) :
    (match l.filter p with
     | [] => (none : Option α)
     | a :: _ => some a) = l.find? p := by
  induction l with
  | nil => simp
  | cons a t ih =>
    by_cases h : p a = true
    · simp [List.filter_cons, h, List.find?_cons]
    · simp only [List.filter_cons, h, if_false, List.find?_cons]
      rw [← ih]
      simp [h]

theorem length_filter_cons {α : Type} (p : α → Bool) (a : α) (t : List α) :
    (List.filter p (a :: t)).length =
      (List.filter p t).length + (if p a = true then 1 else 0) := by
  rw [List.filter_cons]
  split <;> simp

theorem sum_map_add_nat {β : Type} (g h : β → Nat) (ks : List β) :
    (ks.map (fun k => g k + h k)).sum = (ks.map g).sum + (ks.map h).sum := by
  induction ks with
  | nil => simp
  | cons k t ih =>
    simp only [List.map_cons, List.sum_cons, ih]
    omega

theorem sum_map_indicator_eq_one {β : Type} [BEq β] [LawfulBEq β] (b : β)
    (ks : List β) (hnd : ks.Nodup) (hb : b ∈ ks) :
    (ks.map (fun k => if b == k then 1 else 0)).sum = 1 := by
  induction ks with
  | nil => cases hb
  | cons k t ih =>
    rw [List.nodup_cons] at hnd
    simp only [List.map_cons, List.sum_cons]
    rcases List.mem_cons.1 hb with rfl | hbt
    · rw [if_pos (beq_self_eq_true b)]
      have hz : (t.map (fun k => if b == k then 1 else 0)).sum = 0 := by
        apply List.sum_eq_zero
        intro x hx
        rcases List.mem_map.1 hx with ⟨c, hc, rfl⟩
        have : ¬b == c := by
          simp only [beq_iff_eq]
          rintro rfl
          exact hnd.1 hc
        simp [this]
      omega
    · have hbk : ¬b == k := by
        simp only [beq_iff_eq]
        rintro rfl
        exact hnd.1 hbt
      rw [if_neg (by simpa using hbk), ih hnd.2 hbt]

theorem sum_filter_lengths {α β : Type} [BEq β] [LawfulBEq β] (l : List α)
    (f : α → β) (ks : List β) (hnd : ks.Nodup) (hcov : ∀ x ∈ l, f x ∈ ks) :
    (ks.map (fun k => (l.filter (fun x => f x == k)).length)).sum = l.length := by
  induction l with
  | nil => simp
  | cons a t ih =>
    have hstep : (ks.map (fun k => (List.filter (fun x => f x == k) (a :: t)).length)) =
        ks.map (fun k =>
          (List.filter (fun x => f x == k) t).length + (if f a == k then 1 else 0)) := by
      apply List.map_congr_left
      intro k _
      exact length_filter_cons (fun x => f x == k) a t
    rw [hstep, sum_map_add_nat,
      ih (fun x hx => hcov x (List.mem_cons_of_mem a hx)),
      sum_map_indicator_eq_one (f a) ks hnd (hcov a (List.mem_cons_self a t))]
    simp

theorem four_way_partition {α : Type} (l : List α) (p q r : α → Bool)
    (h : ∀ x ∈ l, (if p x then 1 else 0) + (if q x then 1 else 0) +
      (if r x then 1 else 0) ≤ 1) :
    (l.filter p).length + (l.filter q).length + (l.filter r).length +
      (l.filter (fun x => !(p x || q x || r x))).length = l.length := by
  induction l with
  | nil => simp
  | cons a t ih =>
    have ha := h a (List.mem_cons_self a t)
    have ht := ih (fun x hx => h x (List.mem_cons_of_mem a hx))
    rw [length_filter_cons p, length_filter_cons q, length_filter_cons r,
      length_filter_cons (fun x => !(p x || q x || r x))]
    cases hp : p a <;> cases hq : q a <;> cases hr : r a <;>
      simp only [hp, hq, hr] at ha ⊢ <;> simp_all <;> omega

theorem ratFloor_eq_intFloor (q : ℚ) : (q.floor : ℤ) = ⌊q⌋ := by
  rw [Rat.floor_def', Rat.floor_def]

theorem round1_nonneg (q : ℚ) (h : 0 ≤ q) : 0 ≤ round1 q := by
  rw [round1, ratFloor_eq_intFloor]
  have h1 : (0 : ℤ) ≤ ⌊10 * q + 1 / 2⌋ := by
    apply Int.le_floor.2
    push_cast
    nlinarith
  exact div_nonneg (by exact_mod_cast h1) (by norm_num)

theorem round1_le_100 (q : ℚ) (h : q ≤ 100) : round1 q ≤ 100 := by
  rw [round1, ratFloor_eq_intFloor]
  have h1 : ⌊10 * q + 1 / 2⌋ ≤ 1000 := by
    have h2 : ⌊10 * q + 1 / 2⌋ ≤ ⌊(1000 : ℚ) + 1 / 2⌋ :=
      Int.floor_le_floor (by nlinarith)
    have h3 : ⌊(1000 : ℚ) + 1 / 2⌋ = 1000 := by
      rw [Int.floor_eq_iff]
      norm_num
    omega
  rw [div_le_iff₀ (by norm_num : (0:ℚ) < 10)]
  have : ((⌊10 * q + 1 / 2⌋ : ℤ) : ℚ) ≤ 1000 := by exact_mod_cast h1
  linarith

/-! ## Claim theorems -/

/-- Claim C10: calculate_percentage_change is total and never divides by
zero: with a zero previous value it returns 100 for positive current and 0
otherwise, and with a nonzero previous value it returns the exact relative
change in percent ((current - previous) / previous * 100). -/
theorem C10_percentage_change_total (current previous : ℚ) :
    (previous = 0 → 0 < current → calculate_percentage_change current previous = 100) ∧
    (previous = 0 → ¬0 < current → calculate_percentage_change current previous = 0) ∧
    (previous ≠ 0 →
      calculate_percentage_change current previous = (current - previous) / previous * 100 ∧
      previous * calculate_percentage_change current previous = (current - previous) * 100) := by
  refine ⟨fun hp hc => ?_, fun hp hc => ?_, fun hp => ⟨?_, ?_⟩⟩
  · simp [calculate_percentage_change, hp, hc]
  · simp [calculate_percentage_change, hp, hc]
  · simp [calculate_percentage_change, hp]
  · simp only [calculate_percentage_change, if_neg hp]
    field_simp

/-- Witness for C10 at previous = 0, current = 5 and at previous = 2. -/
theorem C10_percentage_change_total_witness :
    calculate_percentage_change 5 0 = 100 ∧
      calculate_percentage_change 3 2 = (3 - 2) / 2 * 100 :=
  ⟨(C10_percentage_change_total 5 0).1 rfl (by norm_num),
   ((C10_percentage_change_total 3 2).2.2 (by norm_num)).1⟩

/-- Claim C1 (code bug): the deduplicating save_to_db builds the uploaded
record key with a minute-truncated timestamp but the persisted record key
with the stored second-precision string, so the keys of one and the same
event never match: re-uploading the Scenario C batch inserts the record
again (the persisted count reaches 2, not 1), contradicting the function's
own stated purpose of avoiding duplicates. -/
theorem C1_save_to_db_reinserts_duplicate :
    (save_to_db [bobUploadRow] []).1 = 1 ∧
    (save_to_db [bobUploadRow] ((save_to_db [bobUploadRow] []).2)).1 = 1 ∧
    ((save_to_db [bobUploadRow] ((save_to_db [bobUploadRow] []).2)).2).length = 2 ∧
    newRecordKey bobUploadRow ≠ existingRecordKey (toDbRecord bobUploadRow) := by
  with_unfolding_all decide

/-- Claim C2: the upload handler saves the entire batch when the persisted
set is empty, and otherwise saves exactly the rows whose timestamp is
strictly greater than the maximum persisted timestamp; maxTsOf is indeed
that maximum (an upper bound attained by a persisted row). -/
theorem C2_upload_handler_filter (newDf existingDf : List Row) :
    (∀ r, r ∈ uploadSaved newDf existingDf ↔
      ((existingDf = [] ∧ r ∈ newDf) ∨
        (existingDf ≠ [] ∧ r ∈ newDf ∧ maxTsOf existingDf < r.ts.toMin))) ∧
    (existingDf ≠ [] →
      (∀ e ∈ existingDf, e.ts.toMin ≤ maxTsOf existingDf) ∧
      ∃ e ∈ existingDf, maxTsOf existingDf = e.ts.toMin) := by
  constructor
  · intro r
    by_cases he : existingDf = []
    · simp [uploadSaved, he]
    · simp [uploadSaved, he, List.mem_filter]
  · intro he
    exact ⟨fun e hm => maxTsOf_ge existingDf e hm, maxTsOf_attained existingDf he⟩

/-- Witness for C2 on a singleton persisted set: the strictly newer onsite
row passes the filter while the bound and attainment hold for the
persisted screen row. -/
theorem C2_upload_handler_filter_witness :
    (aliceOnsiteRow ∈ uploadSaved [aliceOnsiteRow] [aliceScreenRow] ↔
      (([aliceScreenRow] : List Row) = [] ∧ aliceOnsiteRow ∈ [aliceOnsiteRow]) ∨
        (([aliceScreenRow] : List Row) ≠ [] ∧ aliceOnsiteRow ∈ [aliceOnsiteRow] ∧
          maxTsOf [aliceScreenRow] < aliceOnsiteRow.ts.toMin)) ∧
    ((∀ e ∈ [aliceScreenRow], e.ts.toMin ≤ maxTsOf [aliceScreenRow]) ∧
      ∃ e ∈ [aliceScreenRow], maxTsOf [aliceScreenRow] = e.ts.toMin) :=
  ⟨(C2_upload_handler_filter [aliceOnsiteRow] [aliceScreenRow]).1 aliceOnsiteRow,
   (C2_upload_handler_filter [aliceOnsiteRow] [aliceScreenRow]).2 (by decide)⟩

/-- Counterexample to claim C5: the bucket of 2024-12-30 is "2024-W01"
although the ISO week-numbering year of that date is 2025 (the %Y year part
is the calendar year, not the ISO year), and the weekly source breakdown
buckets the 2023-01-10 event as "2024-W02" while every other aggregator
buckets it as "2023-W02" (not the same bucket in every aggregator). -/
theorem C5_week_bucket_counterexample :
    weekStr ⟨2024, 12, 30, 9, 0⟩ = "2024-W01" ∧
    isoYearOf 2024 12 30 = 2025 ∧
    weekStr ⟨2023, 1, 10, 9, 0⟩ = "2023-W02" ∧
    weekStr2024 ⟨2023, 1, 10, 9, 0⟩ = "2024-W02" ∧
    weekStr ⟨2023, 1, 10, 9, 0⟩ ≠ weekStr2024 ⟨2023, 1, 10, 9, 0⟩ := by
  with_unfolding_all decide

/-- Claim C5 as amended: every aggregator except the weekly source breakdown
derives the bucket solely from the date of interview_timestamp as
calendar-year ++ "-W" ++ zero-padded ISO week number; the weekly source
breakdown hardcodes the year part to 2024, agreeing with the others on
calendar-year-2024 dates; the week number follows ISO numbering (January 4
always falls in week 1, checked for the years 2000 through 2040). -/
theorem C5_week_bucket_amended :
    (∀ t : DT, weekStr t =
      toString t.year ++ "-W" ++ natPad2 (isoWeekNum t.year t.month t.day).toNat) ∧
    (∀ t : DT, weekStr2024 t =
      "2024-W" ++ natPad2 (isoWeekNum t.year t.month t.day).toNat) ∧
    (∀ t : DT, t.year = 2024 → weekStr t = weekStr2024 t) ∧
    (∀ y : Nat, y < 41 → isoWeekNum (2000 + (y : Int)) 1 4 = 1) ∧
    (∀ t u : DT, t.year = u.year → t.month = u.month → t.day = u.day →
      weekStr t = weekStr u) := by
  refine ⟨fun t => rfl, fun t => rfl, fun t h => ?_, by decide, fun t u h1 h2 h3 => ?_⟩
  · simp only [weekStr, weekStr2024, h]
    rfl
  · simp only [weekStr, h1, h2, h3]

/-- Witness for C5 at a 2024 date and at January 4 of 2024. -/
theorem C5_week_bucket_amended_witness :
    weekStr ⟨2024, 5, 6, 10, 30⟩ = weekStr2024 ⟨2024, 5, 6, 10, 30⟩ ∧
      isoWeekNum (2000 + ((24 : Nat) : Int)) 1 4 = 1 :=
  ⟨C5_week_bucket_amended.2.2.1 ⟨2024, 5, 6, 10, 30⟩ rfl,
   C5_week_bucket_amended.2.2.2.1 24 (by norm_num)⟩

/-- Counterexample to claim C8: on starExampleTable the app.py
get_star_recruiter returns B (the largest single-week row), although A's
summed Total Screens (7) strictly exceed B's (5), so the returned recruiter
is not the one with maximal summed screens. -/
theorem C8_star_counterexample :
    get_star_recruiter_app starExampleTable = some "B" ∧
    sumScreensFor starExampleTable "B" < sumScreensFor starExampleTable "A" := by
  with_unfolding_all decide

/-- Claim C8 as amended: the metrics.py get_star_recruiter returns null
exactly on an empty table and otherwise a recruiter of the table whose
summed Total Screens is maximal; the app.py variant returns null exactly on
an empty table and otherwise the recruiter of a single row with maximal
Total Screens (no summing across weeks). -/
theorem C8_star_amended (t : List ScreenRow) :
    (get_star_recruiter_metrics t = none ↔ t = []) ∧
    (∀ rec, get_star_recruiter_metrics t = some rec →
      rec ∈ t.map (fun r => r.recruiter) ∧
      ∀ rec2 ∈ t.map (fun r => r.recruiter),
        sumScreensFor t rec2 ≤ sumScreensFor t rec) ∧
    (get_star_recruiter_app t = none ↔ t = []) ∧
    (∀ rec, get_star_recruiter_app t = some rec →
      ∃ row ∈ t, row.recruiter = rec ∧
        ∀ row2 ∈ t, row2.totalScreens ≤ row.totalScreens) := by
  have hkeys : ∀ x, x ∈ sortLe strLeB (uniqueFirst (t.map (fun r => r.recruiter))) ↔
      x ∈ t.map (fun r => r.recruiter) := by
    intro x
    rw [mem_sortLe, mem_uniqueFirst]
  refine ⟨?_, ?_, ?_, ?_⟩
  · cases ht : t with
    | nil => simp [get_star_recruiter_metrics, uniqueFirst, uniqueFirstAux, sortLe]
    | cons a l =>
      have hmem : a.recruiter ∈ sortLe strLeB (uniqueFirst (t.map (fun r => r.recruiter))) := by
        rw [hkeys]
        exact ht ▸ List.mem_map_of_mem _ (List.mem_cons_self a l)
      constructor
      · intro hnone
        rw [get_star_recruiter_metrics] at hnone
        rcases hk : sortLe strLeB (uniqueFirst (t.map (fun r => r.recruiter))) with _ | ⟨b, ks⟩
        · rw [hk] at hmem
          cases hmem
        · rw [ht] at hk
          rw [hk] at hnone
          cases hnone
      · intro h
        exact absurd h (List.cons_ne_nil a l)
  · intro rec hrec
    rw [get_star_recruiter_metrics] at hrec
    rcases hk : sortLe strLeB (uniqueFirst (t.map (fun r => r.recruiter))) with _ | ⟨b, ks⟩
    · rw [hk] at hrec
      cases hrec
    · rw [hk] at hrec
      have hres := foldl_pickMax_mem (fun x => sumScreensFor t x) ks b
      simp only [Option.some.injEq] at hrec
      constructor
      · rw [← hkeys, hk]
        rw [← hrec]
        exact hres.1
      · intro rec2 hrec2
        rw [← hkeys, hk] at hrec2
        rw [← hrec]
        exact hres.2 rec2 hrec2
  · cases ht : t with
    | nil => simp [get_star_recruiter_app]
    | cons a l =>
      simp [get_star_recruiter_app]
  · intro rec hrec
    cases ht : t with
    | nil =>
      rw [ht] at hrec
      cases hrec
    | cons a l =>
      rw [ht] at hrec
      rw [get_star_recruiter_app] at hrec
      simp only [Option.some.injEq] at hrec
      have hres := foldl_pickMax_mem (fun x => x.totalScreens) l a
      refine ⟨l.foldl (fun best r => if best.totalScreens < r.totalScreens then r else best) a,
        ht ▸ hres.1, hrec, ?_⟩
      intro row2 hrow2
      exact hres.2 row2 (ht ▸ hrow2)

/-- Witness for C8 on starExampleTable: the metrics variant's output A
dominates every summed total, and the app variant's output B is the
recruiter of a row dominating every single-row total. -/
theorem C8_star_amended_witness :
    ("A" ∈ starExampleTable.map (fun r => r.recruiter) ∧
      ∀ rec2 ∈ starExampleTable.map (fun r => r.recruiter),
        sumScreensFor starExampleTable rec2 ≤ sumScreensFor starExampleTable "A") ∧
    (∃ row ∈ starExampleTable, row.recruiter = "B" ∧
      ∀ row2 ∈ starExampleTable, row2.totalScreens ≤ row.totalScreens) :=
  ⟨(C8_star_amended starExampleTable).2.1 "A" (by with_unfolding_all decide),
   (C8_star_amended starExampleTable).2.2.2 "B" (by with_unfolding_all decide)⟩

/-- Counterexample to claim C4: on mixedWeeksDf with weeksToShow = 1 the
screen-metrics totals sum to 1 (the window is computed from the screen
events, whose latest week is 2024-W02), but no recruiter-screen event lies
in latestWeeks(dataset, 1) = [2024-W03], which only contains the onsite
event; 1 is not 0. -/
theorem C4_screen_sum_counterexample :
    ((get_recruiter_screen_metrics mixedWeeksDf 1).map (fun r => r.totalScreens)).sum = 1 ∧
    (mixedWeeksDf.filter (fun r => isScreenForm r.feedbackForm &&
      !isOnsiteInterviewer r.interviewer &&
      (latestWeeksAll mixedWeeksDf 1).contains (weekStr r.ts))).length = 0 ∧
    (1 : Nat) ≠ 0 := by
  with_unfolding_all decide

/-- Claim C4 as amended: the screen totals emitted by
get_recruiter_screen_metrics sum to the number of recruiter-screen events
whose bucket lies in the window of the weeksToShow most recent weeks among
the recruiter-screen events themselves (not among the full dataset). -/
theorem C4_screen_sum_amended (df : List Row) (n : Nat) :
    ((get_recruiter_screen_metrics df n).map (fun r => r.totalScreens)).sum =
      (df.filter (fun r => isScreenForm r.feedbackForm &&
        !isOnsiteInterviewer r.interviewer &&
        (latestWeeksScreens df n).contains (weekStr r.ts))).length := by
  have hwin : windowedScreens df n =
      df.filter (fun r => isScreenForm r.feedbackForm &&
        !isOnsiteInterviewer r.interviewer &&
        (latestWeeksScreens df n).contains (weekStr r.ts)) := by
    rw [windowedScreens, screensOf, List.filter_filter]
    apply List.filter_congr
    intro r hr
    cases h1 : isScreenForm r.feedbackForm <;>
      cases h2 : isOnsiteInterviewer r.interviewer <;>
      cases h3 : (latestWeeksScreens df n).contains (weekStr r.ts) <;> rfl
  rw [← hwin]
  by_cases hs : screensOf df = []
  · have hwe : windowedScreens df n = [] := by
      rw [windowedScreens, hs]
      rfl
    simp [get_recruiter_screen_metrics, hs, hwe]
  · rw [get_recruiter_screen_metrics, if_neg hs]
    rw [List.map_map]
    have hsum := sum_filter_lengths (windowedScreens df n)
      (fun r => (weekStr r.ts, r.interviewer)) (screenGroupKeys df n)
      (nodup_sortLe pairLeB _ (nodup_uniqueFirst _))
      (fun r hr => by
        rw [screenGroupKeys, mem_sortLe, mem_uniqueFirst]
        exact List.mem_map_of_mem _ hr)
    rw [← hsum]
    rfl

theorem length_filterMap_isSome {α β : Type} (f : α → Option β) (l : List α) :
    (l.filterMap f).length = (l.filter (fun a => (f a).isSome)).length := by
  induction l with
  | nil => rfl
  | cons a t ih =>
    rw [List.filterMap_cons, List.filter_cons]
    cases hf : f a <;> simp [hf, ih]

theorem find_isSome_eq_any {α : Type} (p : α → Bool) (l : List α) :
    (l.find? p).isSome = l.any p :=
  Bool.coe_iff_coe.mp (by rw [List.find?_isSome, List.any_eq_true])

/-- Counterexample to claim C7: with Bob's onsite rows stored out of
timestamp order, the code matches the first onsite row in dataframe order
(2024-01-20, 10 days) while the specified rule (earliest onsite with
timestamp at or after the screen) matches 2024-01-12 (2 days). -/
theorem C7_time_to_hire_counterexample :
    get_time_to_hire_metrics tthExampleDf = [⟨"2024-W02", "RecruiterB", 10⟩] ∧
    timeToHireSpecRows tthExampleDf = [⟨"2024-W02", "RecruiterB", 2⟩] ∧
    (10 : Int) ≠ 2 := by
  with_unfolding_all decide

/-- Claim C7 as amended: each screen-form row is matched to the first onsite
row of the same candidate in dataframe order, irrespective of timestamp
(the match may precede the screen, giving negative days), with days the
floor of the timestamp difference in days; and a screen emits a row exactly
when its candidate has at least one onsite row, so unmatched screens are
excluded rather than zero-filled. -/
theorem C7_time_to_hire_amended (df : List Row) :
    get_time_to_hire_metrics df =
      (tthScreens df).filterMap (fun s =>
        ((tthOnsites df).find? (fun o => o.candidateName == s.candidateName)).map
          (fun o => ⟨weekStr s.ts, s.interviewer, daysBetween o.ts s.ts⟩)) ∧
    (get_time_to_hire_metrics df).length =
      ((tthScreens df).filter (fun s =>
        (tthOnsites df).any (fun o => o.candidateName == s.candidateName))).length := by
  have hfun : (fun s : Row =>
      (match (tthOnsites df).filter (fun o => o.candidateName == s.candidateName) with
       | [] => (none : Option TthRow)
       | o :: _ => some ⟨weekStr s.ts, s.interviewer, daysBetween o.ts s.ts⟩)) =
      (fun s : Row =>
        ((tthOnsites df).find? (fun o => o.candidateName == s.candidateName)).map
          (fun o => ⟨weekStr s.ts, s.interviewer, daysBetween o.ts s.ts⟩)) := by
    funext s
    rw [← head_filter_eq_find]
    cases (tthOnsites df).filter (fun o => o.candidateName == s.candidateName) <;> rfl
  have h1 : get_time_to_hire_metrics df =
      (tthScreens df).filterMap (fun s =>
        ((tthOnsites df).find? (fun o => o.candidateName == s.candidateName)).map
          (fun o => ⟨weekStr s.ts, s.interviewer, daysBetween o.ts s.ts⟩)) := by
    rw [get_time_to_hire_metrics, hfun]
  refine ⟨h1, ?_⟩
  rw [h1, length_filterMap_isSome]
  apply congrArg
  apply List.filter_congr
  intro s _
  rw [← find_isSome_eq_any]
  cases (tthOnsites df).find? (fun o => o.candidateName == s.candidateName) <;> rfl

set_option maxHeartbeats 2000000 in
/-- Counterexample to claim C6: a screen row with origin text matching two
category classifiers at once (Internal Application matches both the applied
and the referred keywords) makes Applied + Sourced + Referred + Unknown
exceed Total: 1 + 0 + 1 + 0 is not 1. -/
theorem C6_source_sum_counterexample :
    get_weekly_source_breakdown [overlapOriginRow] 16 = [⟨"2024-W02", 1, 0, 1, 1⟩] ∧
    specUnknownCount [overlapOriginRow] 16 "2024-W02" = 0 ∧
    1 + 0 + 1 + 0 ≠ 1 := by
  with_unfolding_all decide

/-- Claim C6 as amended: whenever no origin string in the dataframe matches
more than one of the three category classifiers, every week row of the
weekly source breakdown satisfies Applied + Sourced + Referred + Unknown =
Total, with Unknown the (unemitted) count of this week's screen rows
matching no classifier; rows matching several classifiers are otherwise
counted once per matched category. -/
theorem C6_source_sum_amended (df : List Row) (n : Nat) (row : SourceRow)
    (hdisj : ∀ r ∈ df,
      (if matchesApplied (strLower r.candidateOrigin) then 1 else 0) +
        (if matchesSourced (strLower r.candidateOrigin) then 1 else 0) +
        (if matchesReferred (strLower r.candidateOrigin) then 1 else 0) ≤ 1)
    (hrow : row ∈ get_weekly_source_breakdown df n) :
    row.applied + row.sourced + row.referred +
      specUnknownCount df n row.week = row.total := by
  cases df with
  | nil => cases hrow
  | cons a t =>
    simp only [get_weekly_source_breakdown] at hrow
    obtain ⟨w, hw, heq⟩ := List.mem_map.1 hrow
    subst heq
    dsimp only
    rw [specUnknownCount]
    have hsub : ∀ x ∈ (breakdownScreens (a :: t) n).filter
        (fun r => weekStr2024 r.ts == w), x ∈ a :: t := by
      intro x hx
      have hx1 := (List.mem_filter.1 hx).1
      rw [breakdownScreens] at hx1
      exact (List.mem_filter.1 (List.mem_filter.1 hx1).1).1
    generalize hwd : List.filter (fun r => weekStr2024 r.ts == w)
      (breakdownScreens (a :: t) n) = wd at hsub ⊢
    exact four_way_partition wd
      (fun r => matchesApplied (strLower r.candidateOrigin))
      (fun r => matchesSourced (strLower r.candidateOrigin))
      (fun r => matchesReferred (strLower r.candidateOrigin))
      (fun x hx => hdisj x (hsub x hx))

/-- Witness for C6 on a dataframe whose four origins each match at most one
classifier: the single 2024-W02 row satisfies 1 + 1 + 1 + 1 = 4. -/
theorem C6_source_sum_amended_witness :
    (⟨"2024-W02", 1, 1, 1, 4⟩ : SourceRow) ∈ get_weekly_source_breakdown disjointOriginsDf 16 ∧
    (⟨"2024-W02", 1, 1, 1, 4⟩ : SourceRow).applied +
      (⟨"2024-W02", 1, 1, 1, 4⟩ : SourceRow).sourced +
      (⟨"2024-W02", 1, 1, 1, 4⟩ : SourceRow).referred +
      specUnknownCount disjointOriginsDf 16 (⟨"2024-W02", 1, 1, 1, 4⟩ : SourceRow).week =
      (⟨"2024-W02", 1, 1, 1, 4⟩ : SourceRow).total :=
  ⟨by with_unfolding_all decide,
   C6_source_sum_amended disjointOriginsDf 16 ⟨"2024-W02", 1, 1, 1, 4⟩
     (by with_unfolding_all decide) (by with_unfolding_all decide)⟩

/-- Claim C9: every row emitted by get_recruiter_screen_metrics has its pass
rate within [0, 100] and a nonzero Total Screens (groups exist only for
non-empty buckets, so no zero-screen row is ever emitted). -/
theorem C9_pass_rate_bounds (df : List Row) (n : Nat) (row : ScreenRow)
    (hrow : row ∈ get_recruiter_screen_metrics df n) :
    0 ≤ row.passRate ∧ row.passRate ≤ 100 ∧ row.totalScreens ≠ 0 := by
  by_cases hs : screensOf df = []
  · rw [get_recruiter_screen_metrics, if_pos hs] at hrow
    cases hrow
  · rw [get_recruiter_screen_metrics, if_neg hs] at hrow
    obtain ⟨k, hk, heq⟩ := List.mem_map.1 hrow
    subst heq
    dsimp only
    rw [screenGroupKeys, mem_sortLe, mem_uniqueFirst] at hk
    obtain ⟨r, hr, hkr⟩ := List.mem_map.1 hk
    have hrgrp : r ∈ (windowedScreens df n).filter
        (fun x => (weekStr x.ts, x.interviewer) == k) := by
      refine List.mem_filter.2 ⟨hr, ?_⟩
      simp only [hkr, beq_self_eq_true]
    generalize hgrp : (windowedScreens df n).filter
      (fun x => (weekStr x.ts, x.interviewer) == k) = grp at hrgrp ⊢
    have htot : 0 < grp.length := List.length_pos_of_mem hrgrp
    have hpasses : (grp.filter (fun x => scoreAtLeast 3 x.overallScore)).length ≤
        grp.length := List.length_filter_le _ _
    set passes := (grp.filter (fun x => scoreAtLeast 3 x.overallScore)).length with hp
    set total := grp.length with ht
    have hq0 : 0 ≤ (passes : ℚ) / (total : ℚ) * 100 := by positivity
    have hq1 : (passes : ℚ) / (total : ℚ) * 100 ≤ 100 := by
      have hd : (passes : ℚ) / (total : ℚ) ≤ 1 := by
        rw [div_le_one (by exact_mod_cast htot)]
        exact_mod_cast hpasses
      nlinarith
    exact ⟨round1_nonneg _ hq0, round1_le_100 _ hq1, by omega⟩

/-- Witness for C9 on the Scenario A dataset: the single emitted row
(2024-W02, RecruiterA, 1 screen, 1 pass, rate 100) satisfies the bounds. -/
theorem C9_pass_rate_bounds_witness :
    aliceMetricsRow ∈ get_recruiter_screen_metrics [aliceScreenRow] 1 ∧
    (0 ≤ aliceMetricsRow.passRate ∧ aliceMetricsRow.passRate ≤ 100 ∧
      aliceMetricsRow.totalScreens ≠ 0) :=
  ⟨by with_unfolding_all decide,
   C9_pass_rate_bounds [aliceScreenRow] 1 aliceMetricsRow (by with_unfolding_all decide)⟩

theorem any_filter_eq {α : Type} (p q : α → Bool) (l : List α) :
    (l.filter p).any q = l.any (fun a => p a && q a) := by
  induction l with
  | nil => rfl
  | cons a t ih =>
    rw [List.filter_cons]
    cases hp : p a <;> simp [hp, ih]

theorem any_congr {α : Type} (p q : α → Bool) (l : List α)
    (h : ∀ x ∈ l, p x = q x) : l.any p = l.any q := by
  induction l with
  | nil => rfl
  | cons a t ih =>
    simp only [List.any_cons, h a (List.mem_cons_self a t),
      ih (fun x hx => h x (List.mem_cons_of_mem a hx))]

theorem round1_zero : round1 0 = 0 := by
  with_unfolding_all decide

theorem round1_if (c : Prop) [Decidable c] (x : ℚ) :
    round1 (if c then x else 0) = if c then round1 x else 0 := by
  split
  · rfl
  · exact round1_zero

theorem lifetime_contains_eq (df : List Row) (rec cand : String) :
    (lifetimeCandidates df rec).contains cand = everScreenedBy df rec cand := by
  apply Bool.coe_iff_coe.mp
  rw [List.elem_iff, lifetimeCandidates, mem_uniqueFirst, everScreenedBy,
    List.any_eq_true]
  constructor
  · intro hm
    obtain ⟨r, hr, hrc⟩ := List.mem_map.1 hm
    obtain ⟨hrdf, hp⟩ := List.mem_filter.1 hr
    refine ⟨r, hrdf, ?_⟩
    simp only [Bool.and_eq_true, beq_iff_eq] at hp ⊢
    exact ⟨hp, hrc⟩
  · rintro ⟨s, hs, hp⟩
    simp only [Bool.and_eq_true, beq_iff_eq] at hp
    refine List.mem_map.2 ⟨s, List.mem_filter.2 ⟨hs, ?_⟩, hp.2⟩
    simp only [Bool.and_eq_true, beq_iff_eq]
    exact hp.1

theorem conv_onsites_eq (df : List Row) (w rec : String) :
    (df.filter (fun r => weekStr r.ts == w && isOnsiteInterviewer r.interviewer &&
      (lifetimeCandidates df rec).contains r.candidateName)).length =
    specWeekOnsites df w rec := by
  rw [specWeekOnsites]
  refine congrArg List.length (List.filter_congr ?_)
  intro r _
  rw [lifetime_contains_eq]

theorem app_screens_eq (df : List Row) (w rec : String) :
    ((df.filter (fun r => isScreenForm r.feedbackForm)).filter
      (fun r => weekStr r.ts == w && r.interviewer == rec)).length =
    specWeekScreens df w rec := by
  rw [List.filter_filter, specWeekScreens]

theorem app_onsites_eq (df : List Row) (w rec : String) :
    ((df.filter (fun r => isOnsiteInterviewer r.interviewer)).filter (fun r =>
      weekStr r.ts == w &&
        ((df.filter (fun r2 => isScreenForm r2.feedbackForm)).filter
          (fun q => q.interviewer == rec)).any
            (fun q => q.candidateName == r.candidateName))).length =
    specWeekOnsites df w rec := by
  rw [List.filter_filter, specWeekOnsites]
  refine congrArg List.length (List.filter_congr ?_)
  intro r _
  have hany : ((df.filter (fun r2 => isScreenForm r2.feedbackForm)).filter
      (fun q => q.interviewer == rec)).any
        (fun q => q.candidateName == r.candidateName) =
      everScreenedBy df rec r.candidateName := by
    rw [any_filter_eq, any_filter_eq, everScreenedBy]
    apply any_congr
    intro s _
    cases h1 : (s.interviewer == rec) <;> cases h2 : isScreenForm s.feedbackForm <;>
      cases h3 : (s.candidateName == r.candidateName) <;> simp [h1, h2, h3]
  rw [hany]
  cases h1 : (weekStr r.ts == w) <;>
    cases h2 : isOnsiteInterviewer r.interviewer <;>
    cases h3 : everScreenedBy df rec r.candidateName <;> simp [h1, h2, h3]

theorem conv_screens_eq (df : List Row) (w rec : String) :
    (df.filter (fun r => weekStr r.ts == w && r.interviewer == rec &&
      isScreenForm r.feedbackForm)).length = specWeekScreens df w rec := rfl

theorem mem_app_recruiters (df : List Row) (rec : String)
    (h : rec ∈ screenRecruiters df) :
    rec ∈ (uniqueFirst ((df.filter (fun r => isScreenForm r.feedbackForm)).map
      (fun r => r.interviewer))).filter (fun x => !isOnsiteInterviewer x) := by
  rw [screenRecruiters, mem_uniqueFirst] at h
  obtain ⟨r, hr, hri⟩ := List.mem_map.1 h
  obtain ⟨hrdf, hp⟩ := List.mem_filter.1 hr
  simp only [Bool.and_eq_true, Bool.not_eq_true'] at hp
  refine List.mem_filter.2 ⟨?_, ?_⟩
  · rw [mem_uniqueFirst]
    exact List.mem_map.2 ⟨r, List.mem_filter.2 ⟨hrdf, hp.1⟩, hri⟩
  · rw [← hri]
    simp [hp.2]

/-- Claim C3: for every window week and every recruiter with a
recruiter-screen event anywhere in the dataset, the conversion metrics emit
the row whose Onsites counts this week's onsite events for candidates the
recruiter ever screened (lifetime attribution), whose Screens denominator
counts the recruiter's screen events of this week only, and whose
Conversion is Onsites/Screens*100 rounded to one decimal when Screens > 0
and 0 otherwise; this holds for the effective metrics.py definition (whose
rows omit the Screens column) and for the app.py variant (whose rows
include it). -/
theorem C3_conversion_attribution (df : List Row) (n : Nat) (w rec : String)
    (hw : w ∈ latestWeeksAll df n) (hrec : rec ∈ screenRecruiters df) :
    (⟨w, rec, specWeekOnsites df w rec,
      if 0 < specWeekScreens df w rec then
        round1 ((specWeekOnsites df w rec : ℚ) / (specWeekScreens df w rec : ℚ) * 100)
      else 0⟩ : ConvRow) ∈ get_onsite_conversion_metrics df n ∧
    (⟨w, rec, specWeekScreens df w rec, specWeekOnsites df w rec,
      if 0 < specWeekScreens df w rec then
        round1 ((specWeekOnsites df w rec : ℚ) / (specWeekScreens df w rec : ℚ) * 100)
      else 0⟩ : ConvRowApp) ∈ get_onsite_conversion_metrics_app df n := by
  constructor
  · simp only [get_onsite_conversion_metrics]
    refine List.mem_flatMap.2 ⟨w, hw, List.mem_map.2 ⟨rec, hrec, ?_⟩⟩
    dsimp only
    rw [conv_onsites_eq, conv_screens_eq, round1_if]
  · have hrec2 := mem_app_recruiters df rec hrec
    simp only [get_onsite_conversion_metrics_app]
    refine List.mem_flatMap.2 ⟨w, hw, List.mem_map.2 ⟨rec, hrec2, ?_⟩⟩
    dsimp only
    rw [app_onsites_eq, app_screens_eq, round1_if]

/-- Witness for C3 on Scenario B: for RecruiterA in week 2024-W02 the
attribution row is emitted with Onsites = 1, Screens = 1 and
Conversion = 100.0 in both variants. -/
theorem C3_conversion_attribution_witness :
    ((⟨"2024-W02", "RecruiterA",
        specWeekOnsites scenarioBDf "2024-W02" "RecruiterA",
        if 0 < specWeekScreens scenarioBDf "2024-W02" "RecruiterA" then
          round1 ((specWeekOnsites scenarioBDf "2024-W02" "RecruiterA" : ℚ) /
            (specWeekScreens scenarioBDf "2024-W02" "RecruiterA" : ℚ) * 100)
        else 0⟩ : ConvRow) ∈ get_onsite_conversion_metrics scenarioBDf 4 ∧
      (⟨"2024-W02", "RecruiterA",
        specWeekScreens scenarioBDf "2024-W02" "RecruiterA",
        specWeekOnsites scenarioBDf "2024-W02" "RecruiterA",
        if 0 < specWeekScreens scenarioBDf "2024-W02" "RecruiterA" then
          round1 ((specWeekOnsites scenarioBDf "2024-W02" "RecruiterA" : ℚ) /
            (specWeekScreens scenarioBDf "2024-W02" "RecruiterA" : ℚ) * 100)
        else 0⟩ : ConvRowApp) ∈ get_onsite_conversion_metrics_app scenarioBDf 4) ∧
    specWeekOnsites scenarioBDf "2024-W02" "RecruiterA" = 1 ∧
    specWeekScreens scenarioBDf "2024-W02" "RecruiterA" = 1 ∧
    get_onsite_conversion_metrics scenarioBDf 4 =
      [⟨"2024-W02", "RecruiterA", 1, 100⟩] ∧
    get_onsite_conversion_metrics_app scenarioBDf 4 =
      [⟨"2024-W02", "RecruiterA", 1, 1, 100⟩] :=
  ⟨C3_conversion_attribution scenarioBDf 4 "2024-W02" "RecruiterA"
      (by with_unfolding_all decide) (by with_unfolding_all decide),
   by with_unfolding_all decide, by with_unfolding_all decide,
   by with_unfolding_all decide, by with_unfolding_all decide⟩
